import Mathlib

/-!
Shallow embedding of the image-forensics / forgery-scoring engine of
`server/ai/processor.js` (class `EnhancedForgeryDetector`).

Numeric conventions of the embedding:
* JavaScript numbers are modelled as rationals (`ℚ`); pixel samples are `ℕ`
  (the raw buffers hold `Uint8Array` values).
* Comparisons of the form `Math.sqrt d < t` (resp. `|x| > 2 * Math.sqrt v`)
  with `t ≥ 0`, `d ≥ 0`, `v ≥ 0` are embedded as the exactly equivalent
  squared comparisons `d < t * t` (resp. `x ^ 2 > 4 * v`), so that every
  definition stays inside `ℚ`.
* Fields holding `Math.sqrt` of another field (`standardDeviation`, `snr`,
  `stdDev`) are carried as the radicand (`variance`); no claim reads them and
  every use in the source compares them only in the squared form above.
* A JavaScript division `x / 0` occurs only on empty pixel buffers / empty
  block lists; the embedding keeps Lean's `x / 0 = 0` convention and the
  theorems that depend on a mean assume the buffer is nonempty.
* External collaborators (sharp decode / re-encode / convolve, the Python
  subprocesses, the EXIF parser, the wall clock) are modelled as explicit
  inputs; a collaborator failure is an `Except.error` input.
-/

/-- A suspicious area as built by `detectSuspiciousAreas` /
`mergeAreaGroup`.  In the source, a freshly detected block has no
`mergedCount` field (it is `undefined`); only `mergeAreaGroup` adds one.
The embedding models the possibly-absent field as an `Option ℕ`. -/
structure Area where
  x : ℚ
  y : ℚ
  width : ℚ
  height : ℚ
  confidence : ℚ
  type : String
  intensity : ℚ
  mergedCount : Option ℕ
  deriving Repr, DecidableEq

/-- Embedding of `classifySuspiciousArea(intensity)` of the source. -/
def classifySuspiciousArea (intensity : ℚ) : String :=
  if intensity > 200 then "high_manipulation"
  else if intensity > 150 then "medium_manipulation"
  else if intensity > 100 then "low_manipulation"
  else "noise"

/-- Embedding of `areAreasNearby(area1, area2, threshold)`: the source compares
`Math.sqrt ((cx2-cx1)^2 + (cy2-cy1)^2) < threshold`; for the nonnegative
threshold (always 50) this is equivalent to the squared comparison used
here. -/
def areAreasNearby (area1 area2 : Area) (threshold : ℚ) : Bool :=
  let centerX1 := area1.x + area1.width / 2
  let centerY1 := area1.y + area1.height / 2
  let centerX2 := area2.x + area2.width / 2
  let centerY2 := area2.y + area2.height / 2
  decide ((centerX2 - centerX1) ^ 2 + (centerY2 - centerY1) ^ 2 < threshold * threshold)

/-- Embedding of `mergeAreaGroup(group)` of the source; the group is the nonempty list
`g :: gs` (the JS call always passes a group of size ≥ 2, with the seed
first). `Math.min(...)`/`Math.max(...)` over the nonempty list are folds
seeded with the head's value. -/
def mergeAreaGroup (g : Area) (gs : List Area) : Area :=
  let group := g :: gs
  let minX := gs.foldl (fun m a => min m a.x) g.x
  let minY := gs.foldl (fun m a => min m a.y) g.y
  let maxX := gs.foldl (fun m a => max m (a.x + a.width)) (g.x + g.width)
  let maxY := gs.foldl (fun m a => max m (a.y + a.height)) (g.y + g.height)
  let avgConfidence := (group.map (fun a => a.confidence)).sum / group.length
  let avgIntensity := (group.map (fun a => a.intensity)).sum / group.length
  { x := minX
    y := minY
    width := maxX - minX
    height := maxY - minY
    confidence := avgConfidence
    type := classifySuspiciousArea avgIntensity
    intensity := avgIntensity
    mergedCount := some group.length }

/-- The greedy first-seed-wins pass of `mergeSuspiciousAreas`: the JS loop
walks the list in order with a `processed` set; an unprocessed head seeds a
group, absorbs every later unprocessed area within distance 50 of the seed
(`group.length > 1` exactly when at least one other area was absorbed), and
the remaining (far) areas are handled in their original order by the later
iterations.  The recursion is driven by a fuel argument so that it is
structural; `fuel ≥ length` always suffices, since each step consumes at
least the head. -/
def mergeLoopFuel : ℕ → List Area → List Area
  | _, [] => []
  | 0, _ :: _ => []
  | fuel + 1, a :: rest =>
    let nearby := rest.filter (fun other => areAreasNearby a other 50)
    let far := rest.filter (fun other => ! areAreasNearby a other 50)
    (if 0 < nearby.length then mergeAreaGroup a nearby else a) :: mergeLoopFuel fuel far

/-- The merge pass at its canonical fuel. -/
def mergeLoop (areas : List Area) : List Area := mergeLoopFuel areas.length areas

/-- Embedding of `mergeSuspiciousAreas(areas)` of the source: the greedy merge pass
followed by `merged.slice(0, 20)`. -/
def mergeSuspiciousAreas (areas : List Area) : List Area :=
  (mergeLoop areas).take 20

/-- Start offsets of the block grid along one axis: the JS loop
`for (let v = 0; v < extent; v += blockSize)` visits
`0, blockSize, 2*blockSize, …` while below `extent`. -/
def gridStarts (extent blockSize : ℕ) : List ℕ :=
  (List.range ((extent + blockSize - 1) / blockSize)).map (fun k => k * blockSize)

/-- The in-range pixel coordinates of one block: the JS double loop over
`y ∈ [startY, startY+blockSize)`, `x ∈ [startX, startX+blockSize)` with the
guard `x < imageWidth && y * imageWidth + x < pixelCount`.  The pair is
`(x, y)`. -/
def blockCoords (startX startY blockSize imageWidth pixelCount : ℕ) : List (ℕ × ℕ) :=
  ((List.range blockSize).flatMap (fun dy =>
    (List.range blockSize).map (fun dx => (startX + dx, startY + dy)))).filter
    (fun c => c.1 < imageWidth && c.2 * imageWidth + c.1 < pixelCount)

/-- Embedding of `calculateBlockIntensity(data, startX, startY, blockSize, imageWidth)`:
mean greyscale intensity over the in-range pixels of the block, `0` when the
block is entirely out of range. -/
def calculateBlockIntensity (data : List ℕ) (startX startY blockSize imageWidth : ℕ) : ℚ :=
  let inRange := blockCoords startX startY blockSize imageWidth data.length
  let totalIntensity : ℚ := ((inRange.map (fun c => data.getD (c.2 * imageWidth + c.1) 0)).sum : ℕ)
  let count := inRange.length
  if 0 < count then totalIntensity / count else 0

/-- A raw greyscale buffer as handed back by the image-codec collaborator
(`sharp(...).raw().toBuffer({resolveWithObject: true})`): samples plus the
`info` dimensions. -/
structure RawImage where
  data : List ℕ
  width : ℕ
  height : ℕ
  deriving Repr, DecidableEq

/-- The detection pass of `detectSuspiciousAreas`: scan the 32×32 block grid
of the ELA image (outer loop rows, inner loop columns), flag a block when
its mean intensity exceeds `threshold * 255`.  Every generated grid start is
below the extent, so the `ℕ` subtractions in `width`/`height` agree with the
JS real-number subtraction.  A freshly detected block carries no
`mergedCount`. -/
def detectBlocks (img : RawImage) (threshold : ℚ) : List Area :=
  (gridStarts img.height 32).flatMap (fun y =>
    (gridStarts img.width 32).filterMap (fun x =>
      let blockIntensity := calculateBlockIntensity img.data x y 32 img.width
      if blockIntensity > threshold * 255 then
        some { x := (x : ℚ)
               y := (y : ℚ)
               width := (min 32 (img.width - x) : ℕ)
               height := (min 32 (img.height - y) : ℕ)
               confidence := min (blockIntensity / 255) 1
               type := classifySuspiciousArea blockIntensity
               intensity := blockIntensity
               mergedCount := none }
      else none))

/-- Per-channel intensity statistics of `analyzeELAStatistics`.  The
`standardDeviation` field (`Math.sqrt variance`) is carried implicitly by
`variance` (see the header note). -/
structure IntensityStatistics where
  mean : ℚ
  variance : ℚ
  maxIntensity : ℕ
  minIntensity : ℕ
  deriving Repr, DecidableEq

/-- Embedding of `analyzeELAStatistics(elaBuffer)`: mean / variance / max / min over the
raw samples, with the JS accumulator seeds `max = 0`, `min = 255`. -/
def analyzeELAStatistics (pixels : List ℕ) : IntensityStatistics :=
  let sum := pixels.sum
  let maxI := pixels.foldl max 0
  let minI := pixels.foldl min 255
  let mean : ℚ := (sum : ℚ) / pixels.length
  let variance : ℚ := (pixels.map (fun p => ((p : ℚ) - mean) ^ 2)).sum / pixels.length
  { mean := mean, variance := variance, maxIntensity := maxI, minIntensity := minI }

/-- Result record of `performELA`. -/
structure ELAResult where
  elaImagePath : Option String
  statistics : IntensityStatistics
  hasAnomalies : Bool
  deriving Repr, DecidableEq

/-- Embedding of `performELA(imagePath)`: the double re-encode and the pixel difference
run in external collaborators, so the embedding receives either the raw
samples of the resulting ELA difference image or the collaborator's failure;
a failure is rethrown (`throw new Error('Failed to perform ELA analysis')`),
which makes the whole pipeline abort. -/
def performELA (imagePath : String) (elaPixels : Except String (List ℕ)) :
    Except String ELAResult :=
  match elaPixels with
  | .error _ => .error "Failed to perform ELA analysis"
  | .ok pixels =>
    let stats := analyzeELAStatistics pixels
    .ok { elaImagePath := some (imagePath ++ "_ela.jpg")
          statistics := stats
          hasAnomalies := decide (stats.maxIntensity > 50) || decide (stats.variance > 1000) }

/-- Embedding of `detectSuspiciousAreas(imagePath, elaAnalysis)`: empty when the ELA
result carries no image path; the decode of the saved ELA image is external,
and its failure is caught (`catch { return [] }`); otherwise detect blocks
on the 32×32 grid and merge them. -/
def detectSuspiciousAreas (elaAnalysis : ELAResult) (elaImage : Except String RawImage)
    (threshold : ℚ) : List Area :=
  match elaAnalysis.elaImagePath with
  | none => []
  | some _ =>
    match elaImage with
    | .error _ => []
    | .ok img => mergeSuspiciousAreas (detectBlocks img threshold)

/-- One entry of the compression map
(`{x, y, width: 8, height: 8, quality}`). -/
structure CompressionBlock where
  x : ℕ
  y : ℕ
  width : ℕ
  height : ℕ
  quality : ℚ
  deriving Repr, DecidableEq

/-- Embedding of `estimateBlockQuality(data, startX, startY, blockSize, imageWidth, channels)`:
mean of `(data[p] + data[p+1] + data[p+2]) / 3` over the in-range pixels,
where `p = (y*imageWidth + x) * channels` and the range guard divides the
buffer length by the channel count.  (When `channels < 3` the JS taps
`p+1`, `p+2` can run past the buffer and read `undefined`; the embedding
reads `0` there — the theorems below only use inputs with `channels = 3`
and full coverage, where both agree.) -/
def estimateBlockQuality (data : List ℕ) (startX startY blockSize imageWidth channels : ℕ) : ℚ :=
  -- the JS guard is `y*imageWidth + x < data.length / channels` with a
  -- rational right-hand side; for positive `channels` an integer index `k`
  -- satisfies `k < L/c` iff `k < ⌈L/c⌉`, embedded as `(L + c - 1) / c` in
  -- `ℕ` (for `channels = 0` the JS bound is `Infinity`; that case is never
  -- produced by the image codec and is not relied on by any theorem)
  let inRange := blockCoords startX startY blockSize imageWidth
    ((data.length + channels - 1) / channels)
  let total : ℚ := (inRange.map (fun c =>
    let p := (c.2 * imageWidth + c.1) * channels
    ((data.getD p 0 + data.getD (p + 1) 0 + data.getD (p + 2) 0 : ℕ) : ℚ) / 3)).sum
  let count := inRange.length
  if 0 < count then total / count else 0

/-- Embedding of `generateCompressionMap(imagePath)` after the external
`resize(100,100).raw()` step: the 8×8 block grid over the returned raw
buffer (outer loop rows, inner loop columns); every entry records the fixed
`blockSize` as its width/height. -/
def generateCompressionMap (img : RawImage) (channels : ℕ) : List CompressionBlock :=
  (gridStarts img.height 8).flatMap (fun y =>
    (gridStarts img.width 8).map (fun x =>
      { x := x, y := y, width := 8, height := 8
        quality := estimateBlockQuality img.data x y 8 img.width channels }))

/-- Embedding of `calculateQualityVariance(compressionMap)`; `stdDev = Math.sqrt variance`
is carried by `variance` (header note). -/
structure QualityVariance where
  mean : ℚ
  variance : ℚ
  deriving Repr, DecidableEq

def calculateQualityVariance (compressionMap : List CompressionBlock) : QualityVariance :=
  let qualities := compressionMap.map (fun block => block.quality)
  let mean : ℚ := qualities.sum / (qualities.length : ℚ)
  let variance : ℚ := (qualities.map (fun q => (q - mean) ^ 2)).sum / (qualities.length : ℚ)
  { mean := mean, variance := variance }

/-- The parsed output of the external `compression_analysis.py` subprocess
(`detectCompressionArtifacts`); on any subprocess failure the JS resolves
`{inconsistentBlocks: 0, artifacts: []}`, so this input is always present. -/
structure CompressionArtifacts where
  inconsistentBlocks : ℕ
  deriving Repr, DecidableEq

/-- Return record of `analyzeCompressionPatterns`. -/
structure PatternAnalysis where
  qualityVariance : QualityVariance
  suspiciousBlockCount : ℕ
  suspiciousBlocks : List CompressionBlock
  overallSuspicion : String
  deriving Repr, DecidableEq

/-- Embedding of `analyzeCompressionPatterns(artifacts, compressionMap)`: a block is
suspicious when `|quality − mean| > 2·stdDev`, embedded as the squared
comparison; the kept subset is the first 10; classification thresholds are
`>5` high / `>2` medium.  (The `artifacts` argument is unused, exactly as in
the source.) -/
def analyzeCompressionPatterns (artifacts : CompressionArtifacts)
    (compressionMap : List CompressionBlock) : PatternAnalysis :=
  let qualityVariance := calculateQualityVariance compressionMap
  let suspiciousBlocks := compressionMap.filter (fun block =>
    decide ((block.quality - qualityVariance.mean) ^ 2 > 4 * qualityVariance.variance))
  { qualityVariance := qualityVariance
    suspiciousBlockCount := suspiciousBlocks.length
    suspiciousBlocks := suspiciousBlocks.take 10
    overallSuspicion :=
      if suspiciousBlocks.length > 5 then "high"
      else if suspiciousBlocks.length > 2 then "medium" else "low" }

/-- Successful external inputs of `analyzeCompression`: the sharp metadata,
the subprocess artifacts, and the down-sampled raw buffer with its channel
count. -/
structure CompressionInput where
  format : String
  artifacts : CompressionArtifacts
  mapImage : RawImage
  channels : ℕ
  deriving Repr, DecidableEq

/-- Result record of `analyzeCompression`; the degraded catch branch sets
only the flag and the error message, so the other fields are optional. -/
structure CompressionResult where
  format : Option String
  hasInconsistentCompression : Bool
  compressionArtifacts : Option CompressionArtifacts
  compressionMap : Option (List CompressionBlock)
  analysis : Option PatternAnalysis
  error : Option String
  deriving Repr, DecidableEq

/-- Embedding of `analyzeCompression(imagePath)`: on the success path the anomaly flag is
`compressionArtifacts.inconsistentBlocks > 5` (the subprocess count — not
the compression-map suspicious-block count used for the classification);
analyzer-local failures degrade to `{hasInconsistentCompression: false,
error}`. -/
def analyzeCompression : Except String CompressionInput → CompressionResult
  | .error msg =>
    { format := none, hasInconsistentCompression := false, compressionArtifacts := none
      compressionMap := none, analysis := none, error := some msg }
  | .ok inp =>
    let compressionMap := generateCompressionMap inp.mapImage inp.channels
    { format := some inp.format
      hasInconsistentCompression := decide (inp.artifacts.inconsistentBlocks > 5)
      compressionArtifacts := some inp.artifacts
      compressionMap := some compressionMap
      analysis := some (analyzeCompressionPatterns inp.artifacts compressionMap)
      error := none }

/-- Lower-case a string character-wise (`String.toLowerCase`). -/
def lowerStr (s : String) : String := s.map Char.toLower

/-- Embedding of `hay.includes(needle)` on character lists: the needle occurs as a
contiguous run. -/
def listHasSub (needle : List Char) : List Char → Bool
  | [] => needle.isEmpty
  | c :: rest => (needle == (c :: rest).take needle.length) || listHasSub needle rest

/-- Embedding of `hay.includes(needle)` on strings. -/
def strContains (hay needle : String) : Bool := listHasSub needle.data hay.data

/-- The EXIF fields extracted by `parseExifData` (the byte-level regex
parser is external to the numeric core; `DateTime` is the parsed timestamp
on the wall-clock axis, so `new Date(exifData.DateTime) > new Date()` is
the comparison `dateTime > now`). -/
structure ExifData where
  dateTime : Option ℚ
  software : Option String
  make : Option String
  model : Option String
  deriving Repr, DecidableEq

/-- Embedding of `checkMetadataConsistency(metadata, exifData)` at analysis time `now`:
an inconsistency is recorded when the creation timestamp is strictly in the
future, or when the authoring software contains one of the known editor
names case-insensitively; the function returns whether the inconsistency
list is nonempty, i.e. the OR of the two checks.  (The `metadata` argument
is unused in the source body.) -/
def checkMetadataConsistency (exifData : ExifData) (now : ℚ) : Bool :=
  let futureDate :=
    match exifData.dateTime with
    | some d => decide (d > now)
    | none => false
  let suspiciousSoftware :=
    match exifData.software with
    | some sw =>
      ["photoshop", "gimp", "paint.net"].any (fun s => strContains (lowerStr sw) s)
    | none => false
  futureDate || suspiciousSoftware

/-- Successful external inputs of `analyzeMetadata`: the sharp metadata
record; `exif = none` models a missing EXIF blob (the JS then uses `{}`). -/
structure MetadataInput where
  format : String
  width : ℕ
  height : ℕ
  density : Option ℚ
  hasICC : Bool
  exif : Option ExifData
  deriving Repr, DecidableEq

/-- Result record of `analyzeMetadata`; optional fields are absent on the
degraded catch branch.  `creationDate`/`modificationDate` fall back to
`new Date()` (the current time) and `software` to `"Unknown"`. -/
structure MetadataResult where
  format : Option String
  width : Option ℕ
  height : Option ℕ
  hasProfile : Option Bool
  exif : Option ExifData
  hasInconsistentMetadata : Bool
  creationDate : Option ℚ
  software : Option String
  error : Option String
  deriving Repr, DecidableEq

/-- Embedding of `analyzeMetadata(imagePath)` at analysis time `now`; analyzer-local
failures degrade to `{hasInconsistentMetadata: false, error}`. -/
def analyzeMetadata (inp : Except String MetadataInput) (now : ℚ) : MetadataResult :=
  match inp with
  | .error msg =>
    { format := none, width := none, height := none, hasProfile := none, exif := none
      hasInconsistentMetadata := false, creationDate := none, software := none
      error := some msg }
  | .ok m =>
    let exifData := m.exif.getD { dateTime := none, software := none, make := none, model := none }
    { format := some m.format
      width := some m.width
      height := some m.height
      hasProfile := some m.hasICC
      exif := some exifData
      hasInconsistentMetadata := checkMetadataConsistency exifData now
      creationDate := some (exifData.dateTime.getD now)
      software := some (exifData.software.getD "Unknown")
      error := none }

/-- Global noise metrics of `calculateNoiseMetrics`; `standardDeviation`
and `snr = mean / Math.sqrt variance` are carried by `mean`/`variance`
(header note). -/
structure NoiseMetrics where
  mean : ℚ
  variance : ℚ
  deriving Repr, DecidableEq

/-- Embedding of `calculateNoiseMetrics(data, info)`: one pass accumulating the sum and
the sum of squares; `variance = E[x²] − mean²`. -/
def calculateNoiseMetrics (pixels : List ℕ) : NoiseMetrics :=
  let sum := pixels.sum
  let sumSquares := (pixels.map (fun p => p * p)).sum
  let mean : ℚ := (sum : ℚ) / (pixels.length : ℚ)
  let variance : ℚ := (sumSquares : ℚ) / (pixels.length : ℚ) - mean * mean
  { mean := mean, variance := variance }

/-- One entry of the noise map (`{x, y, width: 16, height: 16, noise}`). -/
structure NoiseBlock where
  x : ℕ
  y : ℕ
  width : ℕ
  height : ℕ
  noise : ℚ
  deriving Repr, DecidableEq

/-- Embedding of `calculateBlockNoise(data, startX, startY, blockSize, imageWidth)`: the
two-pass per-block variance — pass 1 the block mean, pass 2 the sum of
squared deviations, divided by the in-range pixel count. -/
def calculateBlockNoise (data : List ℕ) (startX startY blockSize imageWidth : ℕ) : ℚ :=
  let inRange := blockCoords startX startY blockSize imageWidth data.length
  let count := inRange.length
  let mean : ℚ := ((inRange.map (fun c => data.getD (c.2 * imageWidth + c.1) 0)).sum : ℕ) / (count : ℚ)
  let variance : ℚ := (inRange.map (fun c =>
    ((data.getD (c.2 * imageWidth + c.1) 0 : ℚ) - mean) ^ 2)).sum
  if 0 < count then variance / (count : ℚ) else 0

/-- Embedding of `generateNoiseMap(data, info)`: the 16×16 block grid. -/
def generateNoiseMap (img : RawImage) : List NoiseBlock :=
  (gridStarts img.height 16).flatMap (fun y =>
    (gridStarts img.width 16).map (fun x =>
      { x := x, y := y, width := 16, height := 16
        noise := calculateBlockNoise img.data x y 16 img.width }))

/-- Return record of `analyzeNoisePatterns`. -/
structure NoisePatterns where
  noiseMean : ℚ
  noiseVariance : ℚ
  suspiciousBlockCount : ℕ
  suspiciousBlocks : List NoiseBlock
  overallSuspicion : String
  deriving Repr, DecidableEq

/-- Embedding of `analyzeNoisePatterns(metrics, noiseMap)`: a block is suspicious when
`|noise − noiseMean| > 2·sqrt noiseVariance` (squared form here);
classification thresholds are `>10` high / `>5` medium.  (The `metrics`
argument is unused, exactly as in the source.) -/
def analyzeNoisePatterns (metrics : NoiseMetrics) (noiseMap : List NoiseBlock) : NoisePatterns :=
  let noiseValues := noiseMap.map (fun block => block.noise)
  let noiseMean : ℚ := noiseValues.sum / (noiseValues.length : ℚ)
  let noiseVariance : ℚ :=
    (noiseValues.map (fun n => (n - noiseMean) ^ 2)).sum / (noiseValues.length : ℚ)
  let suspiciousBlocks := noiseMap.filter (fun block =>
    decide ((block.noise - noiseMean) ^ 2 > 4 * noiseVariance))
  { noiseMean := noiseMean
    noiseVariance := noiseVariance
    suspiciousBlockCount := suspiciousBlocks.length
    suspiciousBlocks := suspiciousBlocks.take 10
    overallSuspicion :=
      if suspiciousBlocks.length > 10 then "high"
      else if suspiciousBlocks.length > 5 then "medium" else "low" }

/-- Result record of `analyzeNoise`. -/
structure NoiseResult where
  metrics : Option NoiseMetrics
  noiseMap : Option (List NoiseBlock)
  hasInconsistentNoise : Bool
  analysis : Option NoisePatterns
  error : Option String
  deriving Repr, DecidableEq

/-- Embedding of `analyzeNoise(imagePath)` over the external greyscale raw buffer; the
anomaly flag is `metrics.variance > 1000`; analyzer-local failures degrade
to `{hasInconsistentNoise: false, error}`. -/
def analyzeNoise : Except String RawImage → NoiseResult
  | .error msg =>
    { metrics := none, noiseMap := none, hasInconsistentNoise := false
      analysis := none, error := some msg }
  | .ok img =>
    let noiseMetrics := calculateNoiseMetrics img.data
    let noiseMap := generateNoiseMap img
    { metrics := some noiseMetrics
      noiseMap := some noiseMap
      hasInconsistentNoise := decide (noiseMetrics.variance > 1000)
      analysis := some (analyzeNoisePatterns noiseMetrics noiseMap)
      error := none }

/-- Return record of `analyzeEdgeConsistency`. -/
structure EdgeMetrics where
  edgeRatio : ℚ
  averageEdgeIntensity : ℚ
  inconsistencyScore : ℚ
  deriving Repr, DecidableEq

/-- Embedding of `analyzeEdgeConsistency(edgeData)`: count pixels strictly above the edge
threshold 50 and their total intensity; `edgeRatio = edgePixels / total`,
`inconsistencyScore = |edgeRatio − 0.1|`. -/
def analyzeEdgeConsistency (pixels : List ℕ) : EdgeMetrics :=
  let edgeList := pixels.filter (fun p => decide (p > 50))
  let edgePixels := edgeList.length
  let totalIntensity := edgeList.sum
  let edgeRatio : ℚ := (edgePixels : ℚ) / (pixels.length : ℚ)
  let averageEdgeIntensity : ℚ :=
    if 0 < edgePixels then (totalIntensity : ℚ) / (edgePixels : ℚ) else 0
  { edgeRatio := edgeRatio
    averageEdgeIntensity := averageEdgeIntensity
    inconsistencyScore := |edgeRatio - 1/10| }

/-- Result record of `analyzeEdges`. -/
structure EdgeResult where
  metrics : Option EdgeMetrics
  hasInconsistentEdges : Bool
  error : Option String
  deriving Repr, DecidableEq

/-- Embedding of `analyzeEdges(imagePath)` over the externally convolved (3×3 high-pass
kernel) greyscale buffer; the anomaly flag is `inconsistencyScore > 0.3`;
analyzer-local failures degrade to `{hasInconsistentEdges: false, error}`. -/
def analyzeEdges : Except String (List ℕ) → EdgeResult
  | .error msg => { metrics := none, hasInconsistentEdges := false, error := some msg }
  | .ok pixels =>
    let edgeMetrics := analyzeEdgeConsistency pixels
    { metrics := some edgeMetrics
      hasInconsistentEdges := decide (edgeMetrics.inconsistencyScore > 3/10)
      error := none }

/-- The record of analyses handed to `calculateForgeryScore` (the object
literal built inside `analyzeImage`). -/
structure Analyses where
  elaAnalysis : ELAResult
  compressionAnalysis : CompressionResult
  metadataAnalysis : MetadataResult
  noiseAnalysis : NoiseResult
  edgeAnalysis : EdgeResult
  suspiciousAreas : List Area
  deriving Repr, DecidableEq

/-- Embedding of `calculateForgeryScore(analyses)`: weights
`{ela: 0.25, compression: 0.20, metadata: 0.15, noise: 0.20, edges: 0.10,
suspiciousAreas: 0.10}`, severities `{0.8, 0.7, 0.6, 0.5, 0.4}`, plus the
capped suspicious-area term, finally `Math.min(score, 1)`. -/
def calculateForgeryScore (analyses : Analyses) : ℚ :=
  let score : ℚ :=
    (if analyses.elaAnalysis.hasAnomalies then (25/100 : ℚ) * (8/10) else 0)
    + (if analyses.compressionAnalysis.hasInconsistentCompression then (20/100 : ℚ) * (7/10) else 0)
    + (if analyses.metadataAnalysis.hasInconsistentMetadata then (15/100 : ℚ) * (6/10) else 0)
    + (if analyses.noiseAnalysis.hasInconsistentNoise then (20/100 : ℚ) * (5/10) else 0)
    + (if analyses.edgeAnalysis.hasInconsistentEdges then (10/100 : ℚ) * (4/10) else 0)
    + (10/100 : ℚ) * min ((analyses.suspiciousAreas.length : ℚ) / 10) 1
  min score 1

/-- The sub-record of analyses handed to `generateDetailedAnalysis`. -/
structure ReportInput where
  elaAnalysis : ELAResult
  compressionAnalysis : CompressionResult
  metadataAnalysis : MetadataResult
  suspiciousAreas : List Area
  deriving Repr, DecidableEq

/-- The `findings` list built by `generateDetailedAnalysis`. -/
def reportFindings (analyses : ReportInput) : List String :=
  (if analyses.elaAnalysis.hasAnomalies then
    ["Error Level Analysis detected potential tampering areas"] else [])
  ++ (if analyses.compressionAnalysis.hasInconsistentCompression then
    ["Inconsistent JPEG compression patterns found"] else [])
  ++ (if analyses.metadataAnalysis.hasInconsistentMetadata then
    ["Metadata inconsistencies detected"] else [])
  ++ (if analyses.suspiciousAreas.length > 5 then
    [toString analyses.suspiciousAreas.length ++ " suspicious regions identified"] else [])

/-- Embedding of `generateDetailedAnalysis(forgeryScore, analyses)`: the four-tier report,
chosen by the score alone, with the findings joined by `'. '` (string
concatenation is associative, so the grouping chosen here is immaterial). -/
def generateDetailedAnalysis (forgeryScore : ℚ) (analyses : ReportInput) : String :=
  let findings := reportFindings analyses
  if forgeryScore > 8/10 then
    "HIGH RISK: Multiple forgery indicators detected. "
      ++ (String.intercalate ". " findings ++ ".")
  else if forgeryScore > 6/10 then
    "MEDIUM RISK: Some forgery indicators present. "
      ++ (String.intercalate ". " findings ++ ".")
  else if forgeryScore > 3/10 then
    "LOW RISK: Minor inconsistencies found. "
      ++ (String.intercalate ". " findings ++ ".")
  else
    "Document appears authentic with no significant tampering indicators."

/-- The terminal `ForgeryAnalysis` aggregate returned by `analyzeImage`. -/
structure ForgeryAnalysis where
  isForgery : Bool
  forgeryScore : ℚ
  suspiciousAreas : List Area
  elaAnalysis : ELAResult
  compressionAnalysis : CompressionResult
  metadataAnalysis : MetadataResult
  noiseAnalysis : NoiseResult
  edgeAnalysis : EdgeResult
  analysis : String
  deriving Repr, DecidableEq

/-- All external-collaborator observations one `analyzeImage` run makes on a
source image: each analyzer's raw input, or that collaborator's failure.
The image itself is immutable for the run, so the run is a pure function of
this record (plus the detection threshold from config and the wall-clock
time read by the metadata check). -/
structure ImageInputs where
  imagePath : String
  elaPixels : Except String (List ℕ)
  elaImage : Except String RawImage
  compression : Except String CompressionInput
  metadata : Except String MetadataInput
  noise : Except String RawImage
  edgePixels : Except String (List ℕ)
  deriving Repr

/-- Embedding of `analyzeImage(imagePath)`: run the five analyzers, detect and merge the
suspicious areas from the ELA output, aggregate the score, and build the
result record; the only uncaught failure is `performELA`'s, which the outer
catch rethrows as `'Failed to analyze image for forgery'`. -/
def analyzeImage (inputs : ImageInputs) (threshold now : ℚ) : Except String ForgeryAnalysis :=
  match performELA inputs.imagePath inputs.elaPixels with
  | .error _ => .error "Failed to analyze image for forgery"
  | .ok elaAnalysis =>
    let compressionAnalysis := analyzeCompression inputs.compression
    let metadataAnalysis := analyzeMetadata inputs.metadata now
    let noiseAnalysis := analyzeNoise inputs.noise
    let edgeAnalysis := analyzeEdges inputs.edgePixels
    let suspiciousAreas := detectSuspiciousAreas elaAnalysis inputs.elaImage threshold
    let forgeryScore := calculateForgeryScore
      { elaAnalysis := elaAnalysis
        compressionAnalysis := compressionAnalysis
        metadataAnalysis := metadataAnalysis
        noiseAnalysis := noiseAnalysis
        edgeAnalysis := edgeAnalysis
        suspiciousAreas := suspiciousAreas }
    .ok { isForgery := decide (forgeryScore > 6/10)
          forgeryScore := forgeryScore
          suspiciousAreas := suspiciousAreas
          elaAnalysis := elaAnalysis
          compressionAnalysis := compressionAnalysis
          metadataAnalysis := metadataAnalysis
          noiseAnalysis := noiseAnalysis
          edgeAnalysis := edgeAnalysis
          analysis := generateDetailedAnalysis forgeryScore
            { elaAnalysis := elaAnalysis
              compressionAnalysis := compressionAnalysis
              metadataAnalysis := metadataAnalysis
              suspiciousAreas := suspiciousAreas } }

/-! ## Helper lemmas -/

theorem iteWeight_nonneg (b : Bool) (w : ℚ) (hw : 0 ≤ w) :
    0 ≤ (if b then w else 0) := by
  cases b <;> simp [hw]

theorem iteWeight_mono (b₁ b₂ : Bool) (w : ℚ) (hw : 0 ≤ w) (h : b₁ = true → b₂ = true) :
    (if b₁ then w else 0) ≤ (if b₂ then w else 0) := by
  cases b₁ <;> cases b₂ <;> simp_all [hw]

theorem areaTerm_nonneg (n : ℕ) : 0 ≤ (10/100 : ℚ) * min ((n : ℚ) / 10) 1 := by
  have h0 : (0 : ℚ) ≤ min ((n : ℚ) / 10) 1 := le_min (by positivity) (by norm_num)
  positivity

theorem rawScore_nonneg (a : Analyses) :
    0 ≤ (if a.elaAnalysis.hasAnomalies then (25/100 : ℚ) * (8/10) else 0)
      + (if a.compressionAnalysis.hasInconsistentCompression then (20/100 : ℚ) * (7/10) else 0)
      + (if a.metadataAnalysis.hasInconsistentMetadata then (15/100 : ℚ) * (6/10) else 0)
      + (if a.noiseAnalysis.hasInconsistentNoise then (20/100 : ℚ) * (5/10) else 0)
      + (if a.edgeAnalysis.hasInconsistentEdges then (10/100 : ℚ) * (4/10) else 0)
      + (10/100 : ℚ) * min ((a.suspiciousAreas.length : ℚ) / 10) 1 := by
  have h1 := iteWeight_nonneg a.elaAnalysis.hasAnomalies ((25/100 : ℚ) * (8/10)) (by norm_num)
  have h2 := iteWeight_nonneg a.compressionAnalysis.hasInconsistentCompression
    ((20/100 : ℚ) * (7/10)) (by norm_num)
  have h3 := iteWeight_nonneg a.metadataAnalysis.hasInconsistentMetadata
    ((15/100 : ℚ) * (6/10)) (by norm_num)
  have h4 := iteWeight_nonneg a.noiseAnalysis.hasInconsistentNoise
    ((20/100 : ℚ) * (5/10)) (by norm_num)
  have h5 := iteWeight_nonneg a.edgeAnalysis.hasInconsistentEdges
    ((10/100 : ℚ) * (4/10)) (by norm_num)
  have h6 := areaTerm_nonneg a.suspiciousAreas.length
  linarith

theorem calculateForgeryScore_eq (a : Analyses) :
    calculateForgeryScore a =
      min ((if a.elaAnalysis.hasAnomalies then (25/100 : ℚ) * (8/10) else 0)
        + (if a.compressionAnalysis.hasInconsistentCompression then (20/100 : ℚ) * (7/10) else 0)
        + (if a.metadataAnalysis.hasInconsistentMetadata then (15/100 : ℚ) * (6/10) else 0)
        + (if a.noiseAnalysis.hasInconsistentNoise then (20/100 : ℚ) * (5/10) else 0)
        + (if a.edgeAnalysis.hasInconsistentEdges then (10/100 : ℚ) * (4/10) else 0)
        + (10/100 : ℚ) * min ((a.suspiciousAreas.length : ℚ) / 10) 1) 1 := rfl

theorem calculateForgeryScore_nonneg (a : Analyses) : 0 ≤ calculateForgeryScore a := by
  rw [calculateForgeryScore_eq]
  exact le_min (rawScore_nonneg a) (by norm_num)

theorem calculateForgeryScore_le_one (a : Analyses) : calculateForgeryScore a ≤ 1 := by
  rw [calculateForgeryScore_eq]
  exact min_le_right _ _

/-- The shape of every successful `analyzeImage` run: the result record is
built from the analyzer outputs on the run's inputs. -/
theorem analyzeImage_ok (inputs : ImageInputs) (threshold now : ℚ) (r : ForgeryAnalysis)
    (h : analyzeImage inputs threshold now = .ok r) :
    ∃ elaAnalysis, performELA inputs.imagePath inputs.elaPixels = .ok elaAnalysis ∧
      r.elaAnalysis = elaAnalysis ∧
      r.compressionAnalysis = analyzeCompression inputs.compression ∧
      r.metadataAnalysis = analyzeMetadata inputs.metadata now ∧
      r.noiseAnalysis = analyzeNoise inputs.noise ∧
      r.edgeAnalysis = analyzeEdges inputs.edgePixels ∧
      r.suspiciousAreas = detectSuspiciousAreas elaAnalysis inputs.elaImage threshold ∧
      r.forgeryScore = calculateForgeryScore
        { elaAnalysis := elaAnalysis
          compressionAnalysis := analyzeCompression inputs.compression
          metadataAnalysis := analyzeMetadata inputs.metadata now
          noiseAnalysis := analyzeNoise inputs.noise
          edgeAnalysis := analyzeEdges inputs.edgePixels
          suspiciousAreas := detectSuspiciousAreas elaAnalysis inputs.elaImage threshold } ∧
      r.isForgery = decide (r.forgeryScore > 6/10) := by
  unfold analyzeImage at h
  cases hela : performELA inputs.imagePath inputs.elaPixels with
  | error e => rw [hela] at h; exact absurd h (by simp)
  | ok elaAnalysis =>
    rw [hela] at h
    refine ⟨elaAnalysis, rfl, ?_⟩
    cases h
    simp

/-! ## Claim C1 -/

/-- C1: for every completed `analyzeImage` run, the forgery score is the
weighted sum over the flagged analyzers (weights 0.25/0.20/0.15/0.20/0.10,
severities 0.8/0.7/0.6/0.5/0.4) plus `0.10 * min(areaCount/10, 1)`, clamped
to [0,1]; `isForgery` holds exactly when the score exceeds 0.6; and with all
five analyzers flagged and 10 suspicious areas the score is 0.67 and
`isForgery` is true. -/
theorem C1_forgery_score_formula (inputs : ImageInputs) (threshold now : ℚ)
    (r : ForgeryAnalysis) (h : analyzeImage inputs threshold now = .ok r) :
    r.forgeryScore =
      min ((if r.elaAnalysis.hasAnomalies then (25/100 : ℚ) * (8/10) else 0)
        + (if r.compressionAnalysis.hasInconsistentCompression then (20/100 : ℚ) * (7/10) else 0)
        + (if r.metadataAnalysis.hasInconsistentMetadata then (15/100 : ℚ) * (6/10) else 0)
        + (if r.noiseAnalysis.hasInconsistentNoise then (20/100 : ℚ) * (5/10) else 0)
        + (if r.edgeAnalysis.hasInconsistentEdges then (10/100 : ℚ) * (4/10) else 0)
        + (10/100 : ℚ) * min ((r.suspiciousAreas.length : ℚ) / 10) 1) 1
    ∧ (0 ≤ r.forgeryScore ∧ r.forgeryScore ≤ 1)
    ∧ (r.isForgery = true ↔ r.forgeryScore > 6/10)
    ∧ (r.elaAnalysis.hasAnomalies = true →
        r.compressionAnalysis.hasInconsistentCompression = true →
        r.metadataAnalysis.hasInconsistentMetadata = true →
        r.noiseAnalysis.hasInconsistentNoise = true →
        r.edgeAnalysis.hasInconsistentEdges = true →
        r.suspiciousAreas.length = 10 →
        r.forgeryScore = 67/100 ∧ r.isForgery = true) := by
  obtain ⟨ela, -, hE, hC, hM, hN, hEd, hS, hScore, hFor⟩ :=
    analyzeImage_ok inputs threshold now r h
  have hformula : r.forgeryScore =
      min ((if r.elaAnalysis.hasAnomalies then (25/100 : ℚ) * (8/10) else 0)
        + (if r.compressionAnalysis.hasInconsistentCompression then (20/100 : ℚ) * (7/10) else 0)
        + (if r.metadataAnalysis.hasInconsistentMetadata then (15/100 : ℚ) * (6/10) else 0)
        + (if r.noiseAnalysis.hasInconsistentNoise then (20/100 : ℚ) * (5/10) else 0)
        + (if r.edgeAnalysis.hasInconsistentEdges then (10/100 : ℚ) * (4/10) else 0)
        + (10/100 : ℚ) * min ((r.suspiciousAreas.length : ℚ) / 10) 1) 1 := by
    rw [hScore, calculateForgeryScore_eq, hE, hC, hM, hN, hEd, hS]
  have hsc : r.forgeryScore = calculateForgeryScore
      { elaAnalysis := r.elaAnalysis
        compressionAnalysis := r.compressionAnalysis
        metadataAnalysis := r.metadataAnalysis
        noiseAnalysis := r.noiseAnalysis
        edgeAnalysis := r.edgeAnalysis
        suspiciousAreas := r.suspiciousAreas } := by
    rw [hformula, calculateForgeryScore_eq]
  refine ⟨hformula, ⟨?_, ?_⟩, ?_, ?_⟩
  · rw [hsc]; exact calculateForgeryScore_nonneg _
  · rw [hsc]; exact calculateForgeryScore_le_one _
  · rw [hFor]; simp
  · intro h1 h2 h3 h4 h5 h6
    have hval : r.forgeryScore = 67/100 := by
      rw [hformula, h1, h2, h3, h4, h5, h6]
      norm_num [min_def]
    refine ⟨hval, ?_⟩
    rw [hFor, hval]
    simp only [decide_eq_true_eq]
    norm_num

/-- A concrete single-pixel run used to instantiate the pipeline theorems:
every collaborator succeeds, nothing is anomalous, and the EXIF creation
timestamp is 100 on the wall-clock axis. -/
def sampleInputs : ImageInputs :=
  { imagePath := "doc.jpg"
    elaPixels := .ok [0]
    elaImage := .ok { data := [0], width := 1, height := 1 }
    compression := .ok
      { format := "jpeg"
        artifacts := { inconsistentBlocks := 0 }
        mapImage := { data := [], width := 0, height := 0 }
        channels := 3 }
    metadata := .ok
      { format := "jpeg", width := 1, height := 1, density := none, hasICC := false
        exif := some { dateTime := some 100, software := none, make := none, model := none } }
    noise := .ok { data := [0], width := 1, height := 1 }
    edgePixels := .ok [0] }

/-- A placeholder record for total extraction from `Except`. -/
def emptyForgeryAnalysis : ForgeryAnalysis :=
  { isForgery := false
    forgeryScore := 0
    suspiciousAreas := []
    elaAnalysis := { elaImagePath := none, statistics := { mean := 0, variance := 0, maxIntensity := 0, minIntensity := 0 }, hasAnomalies := false }
    compressionAnalysis := { format := none, hasInconsistentCompression := false, compressionArtifacts := none, compressionMap := none, analysis := none, error := none }
    metadataAnalysis := { format := none, width := none, height := none, hasProfile := none, exif := none, hasInconsistentMetadata := false, creationDate := none, software := none, error := none }
    noiseAnalysis := { metrics := none, noiseMap := none, hasInconsistentNoise := false, analysis := none, error := none }
    edgeAnalysis := { metrics := none, hasInconsistentEdges := false, error := none }
    analysis := "" }

/-- The result record of the sample run at analysis time 200. -/
def sampleResult : ForgeryAnalysis :=
  (analyzeImage sampleInputs (7/10) 200).toOption.getD emptyForgeryAnalysis

/-- C1 witness: the sample run completes and the formula applies to it. -/
theorem C1_forgery_score_formula_witness :
    (0 ≤ sampleResult.forgeryScore ∧ sampleResult.forgeryScore ≤ 1)
    ∧ (sampleResult.isForgery = true ↔ sampleResult.forgeryScore > 6/10) :=
  let c := C1_forgery_score_formula sampleInputs (7/10) 200 sampleResult
    (by with_unfolding_all rfl)
  ⟨c.2.1, c.2.2.1⟩

/-! ## Claim C2 -/

/-- C2: with weights and severities fixed, `calculateForgeryScore` is
monotone — if the second analysis record sets every anomaly flag the first
sets and has at least as many suspicious areas, its score is at least the
first's. -/
theorem C2_score_monotone (a₁ a₂ : Analyses)
    (hela : a₁.elaAnalysis.hasAnomalies = true → a₂.elaAnalysis.hasAnomalies = true)
    (hcomp : a₁.compressionAnalysis.hasInconsistentCompression = true →
      a₂.compressionAnalysis.hasInconsistentCompression = true)
    (hmeta : a₁.metadataAnalysis.hasInconsistentMetadata = true →
      a₂.metadataAnalysis.hasInconsistentMetadata = true)
    (hnoise : a₁.noiseAnalysis.hasInconsistentNoise = true →
      a₂.noiseAnalysis.hasInconsistentNoise = true)
    (hedge : a₁.edgeAnalysis.hasInconsistentEdges = true →
      a₂.edgeAnalysis.hasInconsistentEdges = true)
    (hlen : a₁.suspiciousAreas.length ≤ a₂.suspiciousAreas.length) :
    calculateForgeryScore a₁ ≤ calculateForgeryScore a₂ := by
  rw [calculateForgeryScore_eq, calculateForgeryScore_eq]
  have h1 := iteWeight_mono a₁.elaAnalysis.hasAnomalies a₂.elaAnalysis.hasAnomalies
    ((25/100 : ℚ) * (8/10)) (by norm_num) hela
  have h2 := iteWeight_mono a₁.compressionAnalysis.hasInconsistentCompression
    a₂.compressionAnalysis.hasInconsistentCompression ((20/100 : ℚ) * (7/10)) (by norm_num) hcomp
  have h3 := iteWeight_mono a₁.metadataAnalysis.hasInconsistentMetadata
    a₂.metadataAnalysis.hasInconsistentMetadata ((15/100 : ℚ) * (6/10)) (by norm_num) hmeta
  have h4 := iteWeight_mono a₁.noiseAnalysis.hasInconsistentNoise
    a₂.noiseAnalysis.hasInconsistentNoise ((20/100 : ℚ) * (5/10)) (by norm_num) hnoise
  have h5 := iteWeight_mono a₁.edgeAnalysis.hasInconsistentEdges
    a₂.edgeAnalysis.hasInconsistentEdges ((10/100 : ℚ) * (4/10)) (by norm_num) hedge
  have h6 : (10/100 : ℚ) * min ((a₁.suspiciousAreas.length : ℚ) / 10) 1
      ≤ (10/100 : ℚ) * min ((a₂.suspiciousAreas.length : ℚ) / 10) 1 := by
    have hcast : ((a₁.suspiciousAreas.length : ℚ)) ≤ ((a₂.suspiciousAreas.length : ℚ)) := by
      exact_mod_cast hlen
    have : ((a₁.suspiciousAreas.length : ℚ)) / 10 ≤ ((a₂.suspiciousAreas.length : ℚ)) / 10 := by
      linarith
    have := min_le_min this (le_refl (1 : ℚ))
    nlinarith [this]
  exact min_le_min (by linarith) (le_refl 1)

/-- C2 witness: a flagged-ELA record scores at least the all-clear record. -/
theorem C2_score_monotone_witness :
    calculateForgeryScore
      { elaAnalysis := emptyForgeryAnalysis.elaAnalysis
        compressionAnalysis := emptyForgeryAnalysis.compressionAnalysis
        metadataAnalysis := emptyForgeryAnalysis.metadataAnalysis
        noiseAnalysis := emptyForgeryAnalysis.noiseAnalysis
        edgeAnalysis := emptyForgeryAnalysis.edgeAnalysis
        suspiciousAreas := [] }
    ≤ calculateForgeryScore
      { elaAnalysis := { emptyForgeryAnalysis.elaAnalysis with hasAnomalies := true }
        compressionAnalysis := emptyForgeryAnalysis.compressionAnalysis
        metadataAnalysis := emptyForgeryAnalysis.metadataAnalysis
        noiseAnalysis := emptyForgeryAnalysis.noiseAnalysis
        edgeAnalysis := emptyForgeryAnalysis.edgeAnalysis
        suspiciousAreas := [] } :=
  C2_score_monotone _ _ (by intro h; rfl) (by intro h; exact h) (by intro h; exact h)
    (by intro h; exact h) (by intro h; exact h) (by simp)

/-! ## Claim C6 -/

theorem take_of_append_eq (n : ℕ) (t rest p : List Char)
    (hn : n ≤ t.length) (h : t.take n = p) : (t ++ rest).take n = p := by
  rw [List.take_append_of_le_length hn, h]

/-- C6: the report tier is a function of the forgery score alone, with exact
boundaries — `score > 0.8` starts with "HIGH RISK", `0.6 < score ≤ 0.8`
with "MEDIUM RISK", `0.3 < score ≤ 0.6` with "LOW RISK", and `score ≤ 0.3`
is the fixed authentic-document report — for every combination of analyzer
findings. -/
theorem C6_report_tier_boundaries (s : ℚ) (a : ReportInput) :
    (8/10 < s → (generateDetailedAnalysis s a).data.take 9 = "HIGH RISK".data)
    ∧ (6/10 < s → s ≤ 8/10 →
        (generateDetailedAnalysis s a).data.take 11 = "MEDIUM RISK".data)
    ∧ (3/10 < s → s ≤ 6/10 →
        (generateDetailedAnalysis s a).data.take 8 = "LOW RISK".data)
    ∧ (s ≤ 3/10 → generateDetailedAnalysis s a =
        "Document appears authentic with no significant tampering indicators.") := by
  refine ⟨?_, ?_, ?_, ?_⟩
  · intro h
    unfold generateDetailedAnalysis
    rw [if_pos h, String.data_append]
    exact take_of_append_eq 9 _ _ _ (by decide) (by decide)
  · intro h h8
    unfold generateDetailedAnalysis
    rw [if_neg (by exact not_lt.2 h8), if_pos h, String.data_append]
    exact take_of_append_eq 11 _ _ _ (by decide) (by decide)
  · intro h h6
    unfold generateDetailedAnalysis
    rw [if_neg (by exact not_lt.2 (le_trans h6 (by norm_num))),
      if_neg (by exact not_lt.2 h6), if_pos h, String.data_append]
    exact take_of_append_eq 8 _ _ _ (by decide) (by decide)
  · intro h
    unfold generateDetailedAnalysis
    rw [if_neg (by exact not_lt.2 (le_trans h (by norm_num))),
      if_neg (by exact not_lt.2 (le_trans h (by norm_num))),
      if_neg (by exact not_lt.2 h)]

/-- The all-clear report input used by witnesses. -/
def sampleReport : ReportInput :=
  { elaAnalysis := emptyForgeryAnalysis.elaAnalysis
    compressionAnalysis := emptyForgeryAnalysis.compressionAnalysis
    metadataAnalysis := emptyForgeryAnalysis.metadataAnalysis
    suspiciousAreas := [] }

/-- C6 witness: at scores exactly 0.8, 0.6 and 0.3 the tiers land on MEDIUM
RISK, LOW RISK and the authentic report respectively. -/
theorem C6_report_tier_boundaries_witness :
    ((generateDetailedAnalysis (8/10) sampleReport).data.take 11 = "MEDIUM RISK".data)
    ∧ ((generateDetailedAnalysis (6/10) sampleReport).data.take 8 = "LOW RISK".data)
    ∧ (generateDetailedAnalysis (3/10) sampleReport =
        "Document appears authentic with no significant tampering indicators.") :=
  ⟨(C6_report_tier_boundaries (8/10) sampleReport).2.1 (by norm_num) (by norm_num),
   (C6_report_tier_boundaries (6/10) sampleReport).2.2.1 (by norm_num) (by norm_num),
   (C6_report_tier_boundaries (3/10) sampleReport).2.2.2 (by norm_num)⟩

/-! ## Claim C4 -/

/-- C4: on a two-block input, if the squared distance of the bounding-box
centers is below 50² (equivalently, Euclidean distance < 50) the result is
the single merged area — union box, averaged confidence and intensity,
`mergedCount = 2`; if it is above 50² (distance > 50) both blocks survive
unchanged, in order. -/
theorem C4_merge_two_blocks (a b : Area) :
    (((b.x + b.width / 2) - (a.x + a.width / 2)) ^ 2
        + ((b.y + b.height / 2) - (a.y + a.height / 2)) ^ 2 < 50 * 50 →
      mergeSuspiciousAreas [a, b] =
        [{ x := min a.x b.x
           y := min a.y b.y
           width := max (a.x + a.width) (b.x + b.width) - min a.x b.x
           height := max (a.y + a.height) (b.y + b.height) - min a.y b.y
           confidence := (a.confidence + b.confidence) / 2
           type := classifySuspiciousArea ((a.intensity + b.intensity) / 2)
           intensity := (a.intensity + b.intensity) / 2
           mergedCount := some 2 }])
    ∧ (50 * 50 < ((b.x + b.width / 2) - (a.x + a.width / 2)) ^ 2
        + ((b.y + b.height / 2) - (a.y + a.height / 2)) ^ 2 →
      mergeSuspiciousAreas [a, b] = [a, b]) := by
  constructor
  · intro h
    have hb : areAreasNearby a b 50 = true := by
      simp only [areAreasNearby, decide_eq_true_eq]
      linarith
    unfold mergeSuspiciousAreas mergeLoop
    simp only [List.length_cons, List.length_nil, mergeLoopFuel, List.filter, hb,
      Bool.not_true, mergeAreaGroup]
    simp [List.take]
  · intro h
    have hb : areAreasNearby a b 50 = false := by
      simp only [areAreasNearby, decide_eq_false_iff_not]
      intro hc; linarith
    unfold mergeSuspiciousAreas mergeLoop
    simp [mergeLoopFuel, List.filter, hb]

/-- Two flagged 32×32 blocks whose centers are 32 pixels apart. -/
def areaP : Area :=
  { x := 0, y := 0, width := 32, height := 32, confidence := 1/2
    type := "noise", intensity := 90, mergedCount := none }

/-- The adjacent block (centers at distance 32 < 50 from `areaP`). -/
def areaQ : Area :=
  { x := 32, y := 0, width := 32, height := 32, confidence := 1
    type := "noise", intensity := 210, mergedCount := none }

/-- A distant block (centers at distance 200 > 50 from `areaP`). -/
def areaR : Area :=
  { x := 200, y := 0, width := 32, height := 32, confidence := 1
    type := "noise", intensity := 210, mergedCount := none }

/-- C4 witness: the nearby pair merges into one union-box area with
`mergedCount = 2`; the distant pair stays as two entries. -/
theorem C4_merge_two_blocks_witness :
    mergeSuspiciousAreas [areaP, areaQ] =
      [{ x := min areaP.x areaQ.x
         y := min areaP.y areaQ.y
         width := max (areaP.x + areaP.width) (areaQ.x + areaQ.width) - min areaP.x areaQ.x
         height := max (areaP.y + areaP.height) (areaQ.y + areaQ.height) - min areaP.y areaQ.y
         confidence := (areaP.confidence + areaQ.confidence) / 2
         type := classifySuspiciousArea ((areaP.intensity + areaQ.intensity) / 2)
         intensity := (areaP.intensity + areaQ.intensity) / 2
         mergedCount := some 2 }]
    ∧ mergeSuspiciousAreas [areaP, areaR] = [areaP, areaR] :=
  ⟨(C4_merge_two_blocks areaP areaQ).1 (by norm_num [areaP, areaQ]),
   (C4_merge_two_blocks areaP areaR).2 (by norm_num [areaP, areaR])⟩

/-! ## Claim C5 -/

/-- The suspicious-area list of `detectSuspiciousAreas` never exceeds 20
entries. -/
theorem detectSuspiciousAreas_length_le (elaAnalysis : ELAResult)
    (elaImage : Except String RawImage) (threshold : ℚ) :
    (detectSuspiciousAreas elaAnalysis elaImage threshold).length ≤ 20 := by
  unfold detectSuspiciousAreas
  cases elaAnalysis.elaImagePath with
  | none => simp
  | some p =>
    cases elaImage with
    | error e => simp
    | ok img =>
      simp only [mergeSuspiciousAreas]
      exact le_trans (List.length_take_le _ _) (le_refl _)

/-- C5: the merged suspicious-area sequence is the 20-entry cap of the merge
pass — at most 20 entries, in the merge pass's order over detection order
(no severity re-sorting) — and consequently the `suspiciousAreas` field of
every completed analysis has at most 20 entries. -/
theorem C5_area_cap (areas : List Area) :
    (mergeSuspiciousAreas areas).length ≤ 20
    ∧ mergeSuspiciousAreas areas = (mergeLoop areas).take 20
    ∧ ∀ (inputs : ImageInputs) (threshold now : ℚ) (r : ForgeryAnalysis),
        analyzeImage inputs threshold now = .ok r → r.suspiciousAreas.length ≤ 20 := by
  refine ⟨List.length_take_le _ _, rfl, ?_⟩
  intro inputs threshold now r h
  obtain ⟨ela, -, -, -, -, -, -, hS, -, -⟩ := analyzeImage_ok inputs threshold now r h
  rw [hS]
  exact detectSuspiciousAreas_length_le _ _ _

/-- C5 witness: the cap holds on the two-block list and on the sample run. -/
theorem C5_area_cap_witness :
    (mergeSuspiciousAreas [areaP, areaR]).length ≤ 20
    ∧ sampleResult.suspiciousAreas.length ≤ 20 :=
  ⟨(C5_area_cap [areaP, areaR]).1,
   (C5_area_cap []).2.2 sampleInputs (7/10) 200 sampleResult (by with_unfolding_all rfl)⟩

/-! ## Claim C9 -/

/-- A single fully saturated ELA pixel: its one detected block. -/
def c9image : RawImage := { data := [255], width := 1, height := 1 }

/-- The ELA result of a successful run on that pixel (path present). -/
def c9ela : ELAResult :=
  (performELA "doc.jpg" (.ok [255])).toOption.getD emptyForgeryAnalysis.elaAnalysis

/-- The single suspicious area the detector returns on `c9image`. -/
def c9area : Area :=
  { x := 0, y := 0, width := 1, height := 1, confidence := 1
    type := "high_manipulation", intensity := 255, mergedCount := none }

/-- C9 counterexample: the claim says every returned area carries
`mergedCount ≥ 1`, but an unmerged (singleton) detection is returned with no
`mergedCount` field at all (`undefined` in the source, `none` here). -/
theorem C9_mergedCount_counterexample :
    ¬ ∀ a ∈ detectSuspiciousAreas c9ela (.ok c9image) (7/10),
      ∃ k, a.mergedCount = some k ∧ 1 ≤ k := by
  intro hcl
  have hlist : detectSuspiciousAreas c9ela (.ok c9image) (7/10) = [c9area] := by
    set_option maxRecDepth 40000 in with_unfolding_all rfl
  obtain ⟨k, hk, -⟩ := hcl c9area (by rw [hlist]; exact List.mem_singleton_self _)
  simp [c9area] at hk

/-- The averaged confidence of a nonempty group with member confidences in
[0,1] is again in [0,1]. -/
theorem avg_confidence_bounds (g : Area) (gs : List Area)
    (h : ∀ x ∈ g :: gs, 0 ≤ x.confidence ∧ x.confidence ≤ 1) :
    0 ≤ ((g :: gs).map (fun a => a.confidence)).sum / (((g :: gs).length : ℕ) : ℚ)
    ∧ ((g :: gs).map (fun a => a.confidence)).sum / (((g :: gs).length : ℕ) : ℚ) ≤ 1 := by
  have hlen : (0 : ℚ) < (((g :: gs).length : ℕ) : ℚ) := by
    simp only [List.length_cons]
    positivity
  have hsum0 : 0 ≤ ((g :: gs).map (fun a => a.confidence)).sum :=
    List.sum_nonneg (by
      intro q hq
      obtain ⟨x, hx, rfl⟩ := List.mem_map.1 hq
      exact (h x hx).1)
  have hsum1 : ((g :: gs).map (fun a => a.confidence)).sum ≤ (((g :: gs).length : ℕ) : ℚ) := by
    have := List.sum_le_card_nsmul ((g :: gs).map (fun a => a.confidence)) 1 (by
      intro q hq
      obtain ⟨x, hx, rfl⟩ := List.mem_map.1 hq
      exact (h x hx).2)
    simpa [List.length_map] using this
  exact ⟨div_nonneg hsum0 (le_of_lt hlen), (div_le_one hlen).2 hsum1⟩

/-- Invariant of the greedy merge pass: from detected blocks (confidence in
[0,1], no `mergedCount`) it produces only areas whose confidence is in [0,1]
and whose `mergedCount` is either absent (the area is an unmerged input
block) or the size ≥ 2 of the merged group. -/
theorem mergeLoopFuel_invariant (fuel : ℕ) (areas : List Area)
    (h : ∀ a ∈ areas, (0 ≤ a.confidence ∧ a.confidence ≤ 1) ∧ a.mergedCount = none) :
    ∀ b ∈ mergeLoopFuel fuel areas,
      (0 ≤ b.confidence ∧ b.confidence ≤ 1)
      ∧ (b.mergedCount = none ∨ ∃ k, b.mergedCount = some k ∧ 2 ≤ k) := by
  induction fuel generalizing areas with
  | zero =>
    intro b hb
    cases areas with
    | nil => simp [mergeLoopFuel] at hb
    | cons a rest => simp [mergeLoopFuel] at hb
  | succ fuel ih =>
    intro b hb
    cases areas with
    | nil => simp [mergeLoopFuel] at hb
    | cons a rest =>
      simp only [mergeLoopFuel, List.mem_cons] at hb
      rcases hb with hb | hb
      · subst hb
        by_cases hn : 0 < (rest.filter (fun other => areAreasNearby a other 50)).length
        · rw [if_pos hn]
          have hmem : ∀ x ∈ a :: rest.filter (fun other => areAreasNearby a other 50),
              0 ≤ x.confidence ∧ x.confidence ≤ 1 := by
            intro x hx
            rcases List.mem_cons.1 hx with rfl | hx
            · exact (h x (List.mem_cons_self _ _)).1
            · exact (h x (List.mem_cons_of_mem _ (List.mem_of_mem_filter hx))).1
          have hbd := avg_confidence_bounds a
            (rest.filter (fun other => areAreasNearby a other 50)) hmem
          refine ⟨?_, Or.inr ⟨(a :: rest.filter
            (fun other => areAreasNearby a other 50)).length, ?_, ?_⟩⟩
          · simpa [mergeAreaGroup] using hbd
          · simp [mergeAreaGroup]
          · simp only [List.length_cons]
            omega
        · rw [if_neg hn]
          exact ⟨(h a (List.mem_cons_self _ _)).1, Or.inl (h a (List.mem_cons_self _ _)).2⟩
      · exact ih (rest.filter (fun other => ! areAreasNearby a other 50)) (by
          intro x hx
          exact h x (List.mem_cons_of_mem _ (List.mem_of_mem_filter hx))) b hb

/-- Every block produced by the detection pass has confidence in [0,1] and
no `mergedCount`. -/
theorem detectBlocks_invariant (img : RawImage) (threshold : ℚ) :
    ∀ a ∈ detectBlocks img threshold,
      ((0 ≤ a.confidence ∧ a.confidence ≤ 1) ∧ a.mergedCount = none) := by
  intro a ha
  simp only [detectBlocks, List.mem_flatMap, List.mem_filterMap] at ha
  obtain ⟨y, -, x, -, hx⟩ := ha
  by_cases hcond : calculateBlockIntensity img.data x y 32 img.width > threshold * 255
  · rw [if_pos hcond] at hx
    have hint : 0 ≤ calculateBlockIntensity img.data x y 32 img.width := by
      unfold calculateBlockIntensity
      dsimp only
      split
      · positivity
      · exact le_refl 0
    cases hx
    refine ⟨⟨le_min (by positivity) (by norm_num), min_le_right _ _⟩, rfl⟩
  · rw [if_neg hcond] at hx
    exact absurd hx (by simp)

/-- C9 (amended): every suspicious area returned by `detectSuspiciousAreas`
has confidence in [0,1]; `mergedCount` is present exactly on areas produced
by merging a group of two or more flagged blocks, where it equals the group
size (≥ 2); unmerged singleton blocks carry no `mergedCount` field. -/
theorem C9_area_invariants (elaAnalysis : ELAResult) (elaImage : Except String RawImage)
    (threshold : ℚ) :
    ∀ a ∈ detectSuspiciousAreas elaAnalysis elaImage threshold,
      (0 ≤ a.confidence ∧ a.confidence ≤ 1)
      ∧ (a.mergedCount = none ∨ ∃ k, a.mergedCount = some k ∧ 2 ≤ k) := by
  intro a ha
  unfold detectSuspiciousAreas at ha
  cases hpath : elaAnalysis.elaImagePath with
  | none => rw [hpath] at ha; simp at ha
  | some p =>
    rw [hpath] at ha
    cases elaImage with
    | error msg => simp at ha
    | ok img =>
      simp only [mergeSuspiciousAreas] at ha
      have hmem : a ∈ mergeLoop (detectBlocks img threshold) := List.mem_of_mem_take ha
      exact mergeLoopFuel_invariant _ _ (detectBlocks_invariant img threshold) a hmem

/-- C9 witness: the amended invariant instantiated on the singleton
detection. -/
theorem C9_area_invariants_witness :
    (0 ≤ c9area.confidence ∧ c9area.confidence ≤ 1)
    ∧ (c9area.mergedCount = none ∨ ∃ k, c9area.mergedCount = some k ∧ 2 ≤ k) :=
  C9_area_invariants c9ela (.ok c9image) (7/10) c9area (by
    rw [show detectSuspiciousAreas c9ela (.ok c9image) (7/10) = [c9area] from by
      set_option maxRecDepth 40000 in with_unfolding_all rfl]
    exact List.mem_singleton_self _)

/-! ## Claim C3 -/

/-- A compression-analyzer input whose subprocess artifact count is 0 while
its down-sampled block grid (25 blocks of 8 rows in a 1-pixel-wide image,
the last three blocks beyond the buffer) contains 6 blocks deviating from
the across-block mean by more than twice the standard deviation
(qualities: three 4s, nineteen 2s, three 0s — mean 2, variance 24/25). -/
def c3input : CompressionInput :=
  { format := "jpeg"
    artifacts := { inconsistentBlocks := 0 }
    mapImage := { data := List.replicate 72 4 ++ List.replicate 456 2, width := 1, height := 200 }
    channels := 3 }

/-- C3 counterexample: with 6 suspicious grid blocks (the count that sets
the "high" classification) the claim demands `hasInconsistentCompression =
true`, but the flag is computed from the unrelated subprocess count
`inconsistentBlocks = 0` and stays `false`. -/
theorem C3_flag_counterexample :
    (analyzeCompression (.ok c3input)).hasInconsistentCompression = false
    ∧ ((analyzeCompression (.ok c3input)).analysis.map
        (fun p => p.suspiciousBlockCount)) = some 6
    ∧ ((analyzeCompression (.ok c3input)).analysis.map
        (fun p => p.overallSuspicion)) = some "high" :=
  ⟨by set_option maxRecDepth 200000 in set_option maxHeartbeats 2000000 in
      with_unfolding_all rfl,
   by set_option maxRecDepth 200000 in set_option maxHeartbeats 2000000 in
      with_unfolding_all rfl,
   by set_option maxRecDepth 200000 in set_option maxHeartbeats 2000000 in
      with_unfolding_all rfl⟩

/-- C3 (amended): `hasInconsistentCompression` is `inconsistentBlocks > 5`
on the count parsed from the external compression-artifact subprocess — not
the compression-map suspicious-block count; that separate grid count drives
only the high (>5) / medium (>2) / low classification (and is the
`suspiciousBlockCount` the analysis reports); on a degraded (caught-error)
run the flag is `false`. -/
theorem C3_compression_flag (inp : CompressionInput) :
    ((analyzeCompression (.ok inp)).hasInconsistentCompression = true
      ↔ inp.artifacts.inconsistentBlocks > 5)
    ∧ ((analyzeCompression (.ok inp)).analysis = some
        (analyzeCompressionPatterns inp.artifacts
          (generateCompressionMap inp.mapImage inp.channels)))
    ∧ (∀ (artifacts : CompressionArtifacts) (compressionMap : List CompressionBlock),
        ((analyzeCompressionPatterns artifacts compressionMap).overallSuspicion = "high"
          ↔ (analyzeCompressionPatterns artifacts compressionMap).suspiciousBlockCount > 5)
        ∧ ((analyzeCompressionPatterns artifacts compressionMap).overallSuspicion = "medium"
          ↔ ((analyzeCompressionPatterns artifacts compressionMap).suspiciousBlockCount ≤ 5
            ∧ (analyzeCompressionPatterns artifacts compressionMap).suspiciousBlockCount > 2)))
    ∧ (∀ msg, (analyzeCompression (.error msg)).hasInconsistentCompression = false) := by
  refine ⟨by simp [analyzeCompression], rfl, ?_, by intro msg; rfl⟩
  intro artifacts compressionMap
  simp only [analyzeCompressionPatterns]
  set n := (compressionMap.filter (fun block =>
    decide ((block.quality - (calculateQualityVariance compressionMap).mean) ^ 2
      > 4 * (calculateQualityVariance compressionMap).variance))).length with hn
  by_cases h5 : n > 5
  · rw [if_pos h5]
    constructor
    · simp [h5]
    · constructor
      · intro h; exact absurd h (by decide)
      · rintro ⟨hle, -⟩; omega
  · rw [if_neg h5]
    by_cases h2 : n > 2
    · rw [if_pos h2]
      constructor
      · constructor
        · intro h; exact absurd h (by decide)
        · intro h; omega
      · simp [h5, h2]; omega
    · rw [if_neg h2]
      constructor
      · constructor
        · intro h; exact absurd h (by decide)
        · intro h; omega
      · constructor
        · intro h; exact absurd h (by decide)
        · rintro ⟨-, hgt⟩; omega

/-! ## Claim C7 -/

/-- C7: a failure of the ELA re-encode / pixel-difference step makes
`analyzeImage` throw (the pipeline aborts with no `ForgeryAnalysis`),
whereas a failure inside the Compression, Metadata, Noise or Edge analyzer
is caught in that analyzer: the run still completes and the failed
analyzer's record has its anomaly flag `false` with the error message
recorded. -/
theorem C7_error_handling (inputs : ImageInputs) (threshold now : ℚ) :
    (∀ msg, inputs.elaPixels = .error msg →
      analyzeImage inputs threshold now = .error "Failed to analyze image for forgery")
    ∧ (∀ pixels, inputs.elaPixels = .ok pixels →
      ∃ r, analyzeImage inputs threshold now = .ok r
        ∧ (∀ msg, inputs.compression = .error msg →
            r.compressionAnalysis.hasInconsistentCompression = false
            ∧ r.compressionAnalysis.error = some msg)
        ∧ (∀ msg, inputs.metadata = .error msg →
            r.metadataAnalysis.hasInconsistentMetadata = false
            ∧ r.metadataAnalysis.error = some msg)
        ∧ (∀ msg, inputs.noise = .error msg →
            r.noiseAnalysis.hasInconsistentNoise = false
            ∧ r.noiseAnalysis.error = some msg)
        ∧ (∀ msg, inputs.edgePixels = .error msg →
            r.edgeAnalysis.hasInconsistentEdges = false
            ∧ r.edgeAnalysis.error = some msg)) := by
  constructor
  · intro msg hmsg
    unfold analyzeImage
    rw [show performELA inputs.imagePath inputs.elaPixels
      = .error "Failed to perform ELA analysis" from by rw [hmsg]; rfl]
  · intro pixels hpix
    have hex : ∃ r, analyzeImage inputs threshold now = .ok r := by
      unfold analyzeImage
      rw [show performELA inputs.imagePath inputs.elaPixels
        = .ok { elaImagePath := some (inputs.imagePath ++ "_ela.jpg")
                statistics := analyzeELAStatistics pixels
                hasAnomalies := decide ((analyzeELAStatistics pixels).maxIntensity > 50)
                  || decide ((analyzeELAStatistics pixels).variance > 1000) } from by
        rw [hpix]; rfl]
      exact ⟨_, rfl⟩
    obtain ⟨r, hr⟩ := hex
    obtain ⟨ela, -, -, hC, hM, hN, hEd, -, -, -⟩ := analyzeImage_ok inputs threshold now r hr
    refine ⟨r, hr, ?_, ?_, ?_, ?_⟩
    · intro msg hmsg
      rw [hC, hmsg]
      exact ⟨rfl, rfl⟩
    · intro msg hmsg
      rw [hM, hmsg]
      exact ⟨rfl, rfl⟩
    · intro msg hmsg
      rw [hN, hmsg]
      exact ⟨rfl, rfl⟩
    · intro msg hmsg
      rw [hEd, hmsg]
      exact ⟨rfl, rfl⟩

/-- Inputs whose ELA difference step fails. -/
def elaFailInputs : ImageInputs :=
  { sampleInputs with elaPixels := .error "spawn failed" }

/-- Inputs where ELA succeeds but every non-fatal analyzer fails. -/
def degradedInputs : ImageInputs :=
  { sampleInputs with
    compression := .error "compression decode failed"
    metadata := .error "metadata read failed"
    noise := .error "noise decode failed"
    edgePixels := .error "edge convolve failed" }

/-- The completed run on the degraded inputs. -/
def degradedResult : ForgeryAnalysis :=
  (analyzeImage degradedInputs (7/10) 200).toOption.getD emptyForgeryAnalysis

/-- C7 witness: a failed ELA aborts the sample pipeline; with all four
non-fatal analyzers failing, the pipeline still completes and each degraded
record carries `flag = false` plus its error message. -/
theorem C7_error_handling_witness :
    analyzeImage elaFailInputs (7/10) 200 = .error "Failed to analyze image for forgery"
    ∧ (degradedResult.compressionAnalysis.hasInconsistentCompression = false
        ∧ degradedResult.compressionAnalysis.error = some "compression decode failed")
    ∧ (degradedResult.metadataAnalysis.hasInconsistentMetadata = false
        ∧ degradedResult.metadataAnalysis.error = some "metadata read failed")
    ∧ (degradedResult.noiseAnalysis.hasInconsistentNoise = false
        ∧ degradedResult.noiseAnalysis.error = some "noise decode failed")
    ∧ (degradedResult.edgeAnalysis.hasInconsistentEdges = false
        ∧ degradedResult.edgeAnalysis.error = some "edge convolve failed") := by
  obtain ⟨r, hr, hc, hm, hn, he⟩ :=
    (C7_error_handling degradedInputs (7/10) 200).2 [0] rfl
  have hres : degradedResult = r := by
    unfold degradedResult
    rw [hr]
    rfl
  rw [hres]
  exact ⟨(C7_error_handling elaFailInputs (7/10) 200).1 "spawn failed" rfl,
    hc "compression decode failed" rfl, hm "metadata read failed" rfl,
    hn "noise decode failed" rfl, he "edge convolve failed" rfl⟩

/-! ## Claim C10 -/

/-- C10: on a nonempty convolved buffer the edge flag is set exactly when
the fraction of pixels strictly above the edge threshold 50 exceeds 0.4:
since `edgeRatio ≥ 0`, the score `|edgeRatio − 0.1|` can exceed 0.3 only on
the high side, so an image with abnormally few edge pixels is never
flagged. -/
theorem C10_edge_flag (pixels : List ℕ) (hne : pixels ≠ []) :
    (analyzeEdges (.ok pixels)).hasInconsistentEdges = true
      ↔ ((pixels.filter (fun p => decide (p > 50))).length : ℚ) / (pixels.length : ℚ)
        > 4/10 := by
  have hlen : (0 : ℚ) < (pixels.length : ℚ) := by
    have := List.length_pos.2 hne
    exact_mod_cast this
  have hratio : 0 ≤ ((pixels.filter (fun p => decide (p > 50))).length : ℚ)
      / (pixels.length : ℚ) := by positivity
  simp only [analyzeEdges, analyzeEdgeConsistency, decide_eq_true_eq]
  constructor
  · intro h
    rcases lt_abs.1 h with h' | h'
    · linarith
    · linarith
  · intro h
    exact lt_abs.2 (Or.inl (by linarith))

/-- C10 witness: a buffer that is all edge pixels (ratio 1 > 0.4) is
flagged. -/
theorem C10_edge_flag_witness :
    (analyzeEdges (.ok [70])).hasInconsistentEdges = true :=
  (C10_edge_flag [70] (by simp)).2 (by norm_num)

/-! ## Claim C8 -/

/-- C8 (amended): the pipeline is a pure function of the image-derived
inputs, the threshold, and the analysis time — there is no randomness; the
wall clock read by the metadata consistency check is the only run-dependent
input, so two runs (even at different times) whose metadata check agrees
produce bit-identical forgery scores. -/
theorem C8_determinism_modulo_clock (inputs : ImageInputs) (threshold t1 t2 : ℚ)
    (h : (analyzeMetadata inputs.metadata t1).hasInconsistentMetadata
        = (analyzeMetadata inputs.metadata t2).hasInconsistentMetadata) :
    ((analyzeImage inputs threshold t1).toOption.map (fun r => r.forgeryScore))
      = ((analyzeImage inputs threshold t2).toOption.map (fun r => r.forgeryScore)) := by
  cases hela : performELA inputs.imagePath inputs.elaPixels with
  | error e =>
    unfold analyzeImage
    rw [hela]
  | ok ela =>
    unfold analyzeImage
    rw [hela]
    simp only [Except.toOption, Option.map]
    congr 1
    rw [calculateForgeryScore_eq, calculateForgeryScore_eq]
    simp only []
    rw [h]

/-- C8 counterexample: on the sample image (EXIF creation timestamp 100) a
run at time 50 sees a future timestamp and scores 0.09, while a run at time
200 scores 0 — identical image and options, different `forgeryScore`. -/
theorem C8_clock_counterexample :
    ((analyzeImage sampleInputs (7/10) 50).toOption.map (fun r => r.forgeryScore))
      = some (9/100)
    ∧ ((analyzeImage sampleInputs (7/10) 200).toOption.map (fun r => r.forgeryScore))
      = some 0
    ∧ (9/100 : ℚ) ≠ 0 :=
  ⟨by set_option maxRecDepth 40000 in with_unfolding_all rfl,
   by set_option maxRecDepth 40000 in with_unfolding_all rfl,
   by norm_num⟩

/-- C8 witness: two sample runs at times 200 and 300 (both past the
creation timestamp) agree bit-identically. -/
theorem C8_determinism_modulo_clock_witness :
    ((analyzeImage sampleInputs (7/10) 200).toOption.map (fun r => r.forgeryScore))
      = ((analyzeImage sampleInputs (7/10) 300).toOption.map (fun r => r.forgeryScore)) :=
  C8_determinism_modulo_clock sampleInputs (7/10) 200 300 (by with_unfolding_all rfl)
